import Mathlib

/-!
Verification of the product image lifecycle and catalog consistency logic of
the shopit backend (`src/index.js`).  JavaScript strings are embedded as
`List Char`; JavaScript `String.prototype.split` with a one-character
separator is embedded as `splitOnChar`.  Handlers become pure functions from
a catalog state (a list of products) and a request to a response, a new
state, and a trace of external calls.
-/

namespace Shopit

/-- JavaScript strings, embedded as lists of characters. -/
abbrev JStr := List Char

/-- Convenience literal conversion. -/
def js (s : String) : JStr := s.toList

/-- Embedding of JavaScript `s.split(c)` for a single-character separator:
the result is never empty, and separators delimit (possibly empty) fields. -/
def splitOnChar (c : Char) : List Char → List (List Char)
  | [] => [[]]
  | x :: xs =>
    let r := splitOnChar c xs
    if x = c then [] :: r
    else (x :: r.headD []) :: r.tail

theorem splitOnChar_ne_nil (c : Char) (s : List Char) : splitOnChar c s ≠ [] := by
  cases s with
  | nil => simp [splitOnChar]
  | cons x xs =>
    simp only [splitOnChar]
    by_cases h : x = c <;> simp [h]

theorem splitOnChar_of_not_mem (c : Char) (s : List Char) (h : c ∉ s) :
    splitOnChar c s = [s] := by
  induction s with
  | nil => simp [splitOnChar]
  | cons x xs ih =>
    have hx : x ≠ c := fun hxc => h (hxc ▸ List.mem_cons_self x xs)
    have hxs : c ∉ xs := fun hm => h (List.mem_cons_of_mem x hm)
    simp [splitOnChar, hx, ih hxs]

theorem length_splitOnChar (c : Char) (s : List Char) :
    (splitOnChar c s).length = s.count c + 1 := by
  induction s with
  | nil => simp [splitOnChar]
  | cons x xs ih =>
    simp only [splitOnChar]
    by_cases h : x = c
    · subst h
      simp [List.count_cons, ih]
    · obtain ⟨hd, tl, hr⟩ := List.exists_cons_of_ne_nil (splitOnChar_ne_nil c xs)
      have hlen : (splitOnChar c xs).length = xs.count c + 1 := ih
      rw [hr] at hlen
      simp only [List.length_cons] at hlen
      have hcnt : (x :: xs).count c = xs.count c := by
        simp [List.count_cons, h]
      simp [h, hr, hcnt]
      omega

/-- `l.join` with a dot placed between consecutive pieces. -/
def joinDots (c : Char) : List (List Char) → List Char
  | [] => []
  | [x] => x
  | x :: y :: t => x ++ c :: joinDots c (y :: t)

/-- The public-id derivation performed by `POST /removeproduct`
(src/index.js lines 226-232): take the last `/`-separated part of the raw
URL, keep what comes before the first `.` of that part, and prepend the
folder `products/`. -/
def derivePublicId (url : JStr) : JStr :=
  let urlParts := splitOnChar '/' url
  let filenameWithExt := urlParts.getLastD []
  let publicId := (splitOnChar '.' filenameWithExt).headD []
  js "products/" ++ publicId

/-- Modelled from the spec: "strip query parameters" — everything before
the first `?`. -/
def stripQuery (url : JStr) : JStr := (splitOnChar '?' url).headD []

/-- Modelled from the spec: "take the final path segment". -/
def lastSegment (u : JStr) : JStr := (splitOnChar '/' u).getLastD []

/-- Modelled from the spec: "drop the file extension" — remove the part
after the final dot (keep the segment unchanged when it has no dot). -/
def dropExtension (seg : JStr) : JStr :=
  let parts := splitOnChar '.' seg
  if parts.length ≤ 1 then seg else joinDots '.' parts.dropLast

/-- The derivation described by the spec's four steps: strip query
parameters, take the final path segment, drop the file extension, prepend
the folder `products`. -/
def specDerivePublicId (url : JStr) : JStr :=
  js "products/" ++ dropExtension (lastSegment (stripQuery url))

/-- C3 counterexample: the code's derivation does not implement the spec's
four steps.  On the URL `https://h/products/a.b.png` the code keeps only
the part before the *first* dot of the final segment (`products/a`), while
dropping the file extension as the spec describes yields `products/a.b`. -/
theorem derivePublicId_not_spec_steps :
    derivePublicId (js "https://h/products/a.b.png")
      ≠ specDerivePublicId (js "https://h/products/a.b.png") := by
  decide

/-- C3 (amended): the delete-time derivation takes the final `/`-separated
segment of the raw URL (query parameters are not stripped), keeps the part
before the first dot, and prepends `products/`; it agrees with the spec's
four steps exactly when the URL contains no `?` and its final segment
contains at most one dot. -/
theorem derivePublicId_matches_spec_steps (url : JStr)
    (hq : '?' ∉ url)
    (hd : (lastSegment url).count '.' ≤ 1) :
    derivePublicId url = specDerivePublicId url := by
  have hsq : stripQuery url = url := by
    simp [stripQuery, splitOnChar_of_not_mem _ _ hq]
  suffices h : (splitOnChar '.' (lastSegment url)).headD [] = dropExtension (lastSegment url) by
    simp only [derivePublicId, specDerivePublicId, hsq, lastSegment] at h ⊢
    rw [h]
  rcases Nat.le_one_iff_eq_zero_or_eq_one.mp hd with h0 | h1
  · have hnm : '.' ∉ lastSegment url := List.count_eq_zero.mp h0
    rw [splitOnChar_of_not_mem _ _ hnm]
    simp [dropExtension, splitOnChar_of_not_mem _ _ hnm]
  · have hlen : (splitOnChar '.' (lastSegment url)).length = 2 := by
      rw [length_splitOnChar, h1]
    obtain ⟨a, b, hab⟩ := List.length_eq_two.mp hlen
    rw [hab]
    simp [dropExtension, hab, joinDots]

/-- C3 witness: on a dot-free, query-free URL the hypotheses hold and the
two derivations coincide. -/
theorem derivePublicId_matches_spec_steps_witness :
    ('?' ∉ js "https://h/products/img.png")
      ∧ (lastSegment (js "https://h/products/img.png")).count '.' ≤ 1
      ∧ derivePublicId (js "https://h/products/img.png")
          = specDerivePublicId (js "https://h/products/img.png") :=
  ⟨by decide, by decide,
    derivePublicId_matches_spec_steps (js "https://h/products/img.png")
      (by decide) (by decide)⟩

/-- Errors a handler body can throw; the generic `catch` turns them into a
500 response.  `typeError` models the JavaScript `TypeError` raised by
`null.split(...)`; `destroyFailure` models a rejected Cloudinary destroy
call. -/
inductive JsErr where
  | typeError
  | destroyFailure
deriving DecidableEq

/-- A catalog Product record (Mongoose `Product` model).  The `date` field
(a wall-clock timestamp set by the database) is outside the pure model and
is omitted; no claim mentions it.  `old_price : Option Int` records that the
field may be left undefined. -/
structure Product where
  id : Int
  name : JStr
  image : Option JStr
  imageVersion : Int
  category : JStr
  new_price : Int
  old_price : Option Int
  available : Bool
  features : List JStr
deriving DecidableEq

/-- An HTTP JSON response: status code, `success` flag, message, and the
error carried by a generic catch handler (if any). -/
structure HttpResp where
  status : Nat
  success : Bool
  msg : JStr
  err : Option JsErr
deriving DecidableEq

/-- Externally visible events of the delete path, in issue order. -/
inductive Ev where
  | destroyCall (publicId : JStr) (result : JStr)
  | catalogDelete (id : Int)
deriving DecidableEq

/-- JavaScript truthiness of a possibly-absent string field
(`undefined`, `null` and `""` are falsy). -/
def jsTruthyS : Option JStr → Bool
  | none => false
  | some s => !s.isEmpty

/-- JavaScript truthiness of a possibly-absent numeric field
(`undefined`, `null` and `0` are falsy). -/
def jsTruthyN : Option Int → Bool
  | none => false
  | some v => v != 0

/-- JavaScript `x || d` for a possibly-absent numeric field. -/
def jsNumOr (o : Option Int) (d : Int) : Int :=
  match o with
  | none => d
  | some v => if v != 0 then v else d

/-- `Product.findOne().sort({id:-1})` followed by
`lastProduct ? lastProduct.id + 1 : 1`: one more than the maximum stored
id, or `1` on an empty catalog. -/
def nextId (cat : List Product) : Int :=
  match cat with
  | [] => 1
  | c :: cs => cs.foldl (fun m p => max m p.id) c.id + 1

/-- `Product.findOne({id})`: the first record with the given id. -/
def findProd (cat : List Product) (i : Int) : Option Product :=
  cat.find? (fun p => p.id == i)

/-- `Product.findOneAndDelete({id})`: remove the first record with the
given id. -/
def deleteFirst (cat : List Product) (i : Int) : List Product :=
  match cat with
  | [] => []
  | p :: ps => if p.id == i then ps else p :: deleteFirst ps i

def reqIdMissingResp : HttpResp := ⟨400, false, js "Product ID is required.", none⟩
def notFoundResp : HttpResp := ⟨404, false, js "Product not found.", none⟩
def mediaDeleteResp : HttpResp := ⟨500, false, js "Error deleting image from Cloudinary.", none⟩
def removedResp : HttpResp := ⟨200, true, js "Product and image removed successfully.", none⟩

/-- The generic catch of `POST /removeproduct`. -/
def removeCatchResp (e : JsErr) : HttpResp := ⟨500, false, js "Error removing product.", some e⟩

/-- `POST /removeproduct` (src/index.js lines 210-263).  `dr` is the
Cloudinary oracle giving the `result` string of a destroy call.  Returns
the response, the new catalog, and the trace of external events.  A stored
`image` of `null` makes `imageUrl.split('/')` throw a `TypeError`, which
the generic catch converts into a 500 response. -/
def removeProduct (dr : JStr → JStr) (cat : List Product) (reqId : Option Int) :
    HttpResp × List Product × List Ev :=
  match reqId with
  | none => (reqIdMissingResp, cat, [])
  | some i =>
    if i = 0 then (reqIdMissingResp, cat, [])
    else
      match findProd cat i with
      | none => (notFoundResp, cat, [])
      | some p =>
        match p.image with
        | none => (removeCatchResp .typeError, cat, [])
        | some url =>
          let pid := derivePublicId url
          let r := dr pid
          if r ≠ js "ok" ∧ r ≠ js "not found" then
            (mediaDeleteResp, cat, [Ev.destroyCall pid r])
          else
            (removedResp, deleteFirst cat i, [Ev.destroyCall pid r, Ev.catalogDelete i])

/-- Request body of `POST /upload` (multipart form plus optional file). -/
structure UploadReq where
  name : Option JStr
  category : Option JStr
  new_price : Option Int
  old_price : Option Int
  available : Option Bool
  features : Option (List JStr)
  file : Option JStr
deriving DecidableEq

/-- The validation guard of `POST /upload`:
`if (!name || !category || !new_price)` fails the request. -/
def uploadGuard (r : UploadReq) : Bool :=
  jsTruthyS r.name && jsTruthyS r.category && jsTruthyN r.new_price

def uploadMissingResp : HttpResp :=
  ⟨400, false, js "Missing required fields: name, category, or new_price.", none⟩
def createdResp : HttpResp := ⟨201, true, js "Product added successfully.", none⟩

/-- `POST /upload` (src/index.js lines 84-151).  `uploadUrl` is the
`secure_url` the Cloudinary upload would return for the attached file;
with no file attached, no upload happens and the product is stored with
`image = null`.  `old_price` defaults through `old_price || 0`. -/
def uploadHandler (uploadUrl : JStr) (cat : List Product) (r : UploadReq) :
    HttpResp × List Product :=
  if !uploadGuard r then (uploadMissingResp, cat)
  else
    let imageUrl : Option JStr :=
      match r.file with
      | some _ => some uploadUrl
      | none => none
    let p : Product :=
      { id := nextId cat
        name := r.name.getD []
        image := imageUrl
        imageVersion := 1
        category := r.category.getD []
        new_price := r.new_price.getD 0
        old_price := some (jsNumOr r.old_price 0)
        available := r.available.getD true
        features := r.features.getD [] }
    (createdResp, cat ++ [p])

/-- Request body of `POST /addproduct`.  The handler's
`Array.isArray(features)` check cannot fail in this typed embedding, where
`features`, when present, is always an array. -/
structure AddReq where
  name : Option JStr
  image : Option JStr
  category : Option JStr
  new_price : Option Int
  old_price : Option Int
  available : Option Bool
  features : Option (List JStr)
deriving DecidableEq

/-- The validation guard of `POST /addproduct`:
`if (!name || !image || !category || !new_price)` fails the request. -/
def addGuard (r : AddReq) : Bool :=
  jsTruthyS r.name && jsTruthyS r.image && jsTruthyS r.category && jsTruthyN r.new_price

def addMissingResp : HttpResp :=
  ⟨400, false, js "Missing required fields: name, image, category, or new_price.", none⟩

/-- `POST /addproduct` (src/index.js lines 154-208).  `old_price` is
stored exactly as supplied — the handler applies no default to it. -/
def addProduct (cat : List Product) (r : AddReq) : HttpResp × List Product :=
  if !addGuard r then (addMissingResp, cat)
  else
    let p : Product :=
      { id := nextId cat
        name := r.name.getD []
        image := some (r.image.getD [])
        imageVersion := 1
        category := r.category.getD []
        new_price := r.new_price.getD 0
        old_price := r.old_price
        available := r.available.getD true
        features := r.features.getD [] }
    (createdResp, cat ++ [p])

/-- A Product as returned by `GET /allproducts`: `...product.toObject()`
with the `image` field replaced by the cache-busted string. -/
structure PubProduct where
  id : Int
  name : JStr
  image : JStr
  imageVersion : Int
  category : JStr
  new_price : Int
  old_price : Option Int
  available : Bool
  features : List JStr
deriving DecidableEq

/-- JavaScript template interpolation of a possibly-null string
(`null` renders as the text `null`). -/
def jsShow : Option JStr → JStr
  | none => js "null"
  | some u => u

/-- Fuel-indexed decimal digits, kernel-reducible. -/
def natStrAux : Nat → Nat → JStr
  | 0, _ => []
  | fuel + 1, n =>
    if n < 10 then [Char.ofNat (48 + n)]
    else natStrAux fuel (n / 10) ++ [Char.ofNat (48 + n % 10)]

/-- Decimal rendering of an integer, as template interpolation would. -/
def intStr (i : Int) : JStr :=
  if i < 0 then '-' :: natStrAux (i.natAbs + 1) i.natAbs
  else natStrAux (i.natAbs + 1) i.natAbs

/-- The per-product projection of `GET /allproducts`:
`image` becomes `` `${product.image}?v=${product.imageVersion}` ``. -/
def renderProduct (p : Product) : PubProduct :=
  { id := p.id
    name := p.name
    image := jsShow p.image ++ js "?v=" ++ intStr p.imageVersion
    imageVersion := p.imageVersion
    category := p.category
    new_price := p.new_price
    old_price := p.old_price
    available := p.available
    features := p.features }

/-- `GET /allproducts` (src/index.js lines 265-278): a pure read — the
returned pair carries the unchanged catalog to make the absence of writes
explicit. -/
def allProducts (cat : List Product) : List PubProduct × List Product :=
  (cat.map renderProduct, cat)

/-- A Media Store object: its Cloudinary public id (the key `destroy`
addresses) and its `secure_url`. -/
structure RemoteObj where
  publicId : JStr
  secureUrl : JStr
deriving DecidableEq

/-- Whether `pat` starts the string `s`. -/
def startsWith : JStr → JStr → Bool
  | [], _ => true
  | _ :: _, [] => false
  | a :: ps, b :: bs => a == b && startsWith ps bs

/-- Everything before the last dot of `s` (used for the greedy capture). -/
def beforeLastDot (s : JStr) : JStr :=
  joinDots '.' (splitOnChar '.' s).dropLast

/-- The capture attempted at one candidate position: `(.+)\.` greedily
takes a nonempty stretch up to the last following dot, or fails. -/
def capAt (xs : JStr) : Option JStr :=
  match xs with
  | [] => none
  | c :: rest => if rest.contains '.' then some (c :: beforeLastDot rest) else none

/-- The capture group of `orphan.match(/\/products\/(.+)\./)` in
`cleanupOrphans`: at the leftmost position where `/products/` occurs and a
nonempty capture followed by a dot exists, everything between `/products/`
and the last dot.  `none` models a `null` match. -/
def regexCapture : JStr → Option JStr
  | [] => none
  | c :: rest =>
    if startsWith (js "/products/") (c :: rest) then
      match capAt ((c :: rest).drop 10) with
      | some cap => some cap
      | none => regexCapture rest
    else regexCapture rest

/-- The orphan list computed by `cleanupOrphans`: `secure_url`s of the
remote objects under the `products/` folder whose URL appears in no
catalog record's `image` field. -/
def orphansOf (cat : List Product) (store : List RemoteObj) : List JStr :=
  let resources := store.filter (fun o => startsWith (js "products/") o.publicId)
  let dbImageUrls := cat.map (fun p => p.image)
  (resources.map (fun o => o.secureUrl)).filter (fun u => !(dbImageUrls.contains (some u)))

/-- Outcome of a sweep run: the remaining store and the log lines, or the
error that escaped `cleanupOrphans` (which has no try/catch of its own). -/
inductive SweepResult where
  | ok (store : List RemoteObj) (logs : List JStr)
  | err (e : JsErr)
deriving DecidableEq

/-- The `for (const orphan of orphanedImages)` loop.  `dt` tells, per
public id, whether the destroy call rejects; a rejection — like a `null`
regex match — propagates and ends the whole sweep.  A completed destroy
removes the objects stored under exactly the destroyed public id. -/
def sweepGo (dt : JStr → Bool) :
    List JStr → List RemoteObj → List JStr → SweepResult
  | [], store, logs => .ok store logs.reverse
  | u :: rest, store, logs =>
    match regexCapture u with
    | none => .err .typeError
    | some pid =>
      if dt pid then .err .destroyFailure
      else
        sweepGo dt rest (store.filter (fun o => !(o.publicId == pid)))
          ((js "Deleted orphaned image: " ++ u) :: logs)

/-- The Reconciliation Sweep `cleanupOrphans` (src/index.js lines
358-374). -/
def cleanupOrphans (dt : JStr → Bool) (cat : List Product) (store : List RemoteObj) :
    SweepResult :=
  sweepGo dt (orphansOf cat store) store []

/-- The spec's post-sweep invariant: every remote object under the
`products/` folder has its URL referenced by some catalog record. -/
def sweepSubsetB (cat : List Product) (store : List RemoteObj) : Bool :=
  store.all (fun o =>
    !(startsWith (js "products/") o.publicId)
      || (cat.map (fun p => p.image)).contains (some o.secureUrl))

/-- The product data a creation request carries, before id assignment. -/
structure ProtoProduct where
  name : JStr
  image : Option JStr
  category : JStr
  new_price : Int
  old_price : Option Int
  available : Bool
  features : List JStr
deriving DecidableEq

def mkProduct (i : Int) (d : ProtoProduct) : Product :=
  ⟨i, d.name, d.image, 1, d.category, d.new_price, d.old_price, d.available, d.features⟩

/-- One serialized creation: assign `nextId` and append the record. -/
def createStep (cat : List Product) (d : ProtoProduct) : List Product :=
  cat ++ [mkProduct (nextId cat) d]

/-- The ids assigned along a serialized sequence of creations. -/
def idsAssigned (cat : List Product) : List ProtoProduct → List Int
  | [] => []
  | d :: ds => nextId cat :: idsAssigned (createStep cat d) ds

/-- The product data `POST /addproduct` persists for a valid request. -/
def protoOfAdd (r : AddReq) : ProtoProduct :=
  ⟨r.name.getD [], some (r.image.getD []), r.category.getD [], r.new_price.getD 0,
    r.old_price, r.available.getD true, r.features.getD []⟩

/-- The product data `POST /upload` persists for a valid request. -/
def protoOfUpload (u : JStr) (r : UploadReq) : ProtoProduct :=
  ⟨r.name.getD [],
    (match r.file with | some _ => some u | none => none),
    r.category.getD [], r.new_price.getD 0,
    some (jsNumOr r.old_price 0), r.available.getD true, r.features.getD []⟩

theorem le_foldl_maxId (cs : List Product) :
    ∀ x : Int, x ≤ cs.foldl (fun m p => max m p.id) x := by
  induction cs with
  | nil => intro x; exact le_refl x
  | cons q qs ih =>
    intro x
    exact le_trans (le_max_left x q.id) (ih (max x q.id))

theorem mem_le_foldl_maxId (cs : List Product) :
    ∀ (x : Int) (p : Product), p ∈ cs → p.id ≤ cs.foldl (fun m p => max m p.id) x := by
  induction cs with
  | nil => intro x p hp; cases hp
  | cons q qs ih =>
    intro x p hp
    rcases List.mem_cons.mp hp with h | h
    · subst h
      exact le_trans (le_max_right x p.id) (le_foldl_maxId qs (max x p.id))
    · exact ih (max x q.id) p h

/-- Every stored id is strictly below the next assigned id. -/
theorem id_lt_nextId (cat : List Product) (p : Product) (hp : p ∈ cat) :
    p.id < nextId cat := by
  cases cat with
  | nil => cases hp
  | cons c cs =>
    simp only [nextId]
    rcases List.mem_cons.mp hp with h | h
    · subst h
      have := le_foldl_maxId cs p.id
      omega
    · have := mem_le_foldl_maxId cs c.id p h
      omega

theorem nextId_lt_createStep (cat : List Product) (d : ProtoProduct) :
    nextId cat < nextId (createStep cat d) := by
  have h : mkProduct (nextId cat) d ∈ createStep cat d := by
    simp [createStep]
  simpa [mkProduct] using id_lt_nextId (createStep cat d) (mkProduct (nextId cat) d) h

theorem le_of_mem_idsAssigned :
    ∀ (ds : List ProtoProduct) (cat : List Product) (y : Int),
      y ∈ idsAssigned cat ds → nextId cat ≤ y := by
  intro ds
  induction ds with
  | nil => intro cat y hy; simp [idsAssigned] at hy
  | cons d ds ih =>
    intro cat y hy
    rcases List.mem_cons.mp hy with h | h
    · exact h ▸ le_refl _
    · exact le_of_lt (lt_of_lt_of_le (nextId_lt_createStep cat d) (ih (createStep cat d) y h))

theorem idsAssigned_pairwise :
    ∀ (ds : List ProtoProduct) (cat : List Product),
      List.Pairwise (· < ·) (idsAssigned cat ds) := by
  intro ds
  induction ds with
  | nil => intro cat; simp [idsAssigned]
  | cons d ds ih =>
    intro cat
    simp only [idsAssigned]
    refine List.Pairwise.cons ?_ (ih (createStep cat d))
    intro y hy
    exact lt_of_lt_of_le (nextId_lt_createStep cat d)
      (le_of_mem_idsAssigned ds (createStep cat d) y hy)

/-! Concrete fixtures used by witnesses and counterexamples. -/

def demoUrlA : JStr := js "https://h/products/a.png"
def demoProdA : Product := ⟨1, js "a", some demoUrlA, 1, js "c", 5, some 0, true, []⟩
def demoNullProd : Product := ⟨1, js "n", none, 1, js "c", 3, some 0, true, []⟩
def demoAddReq : AddReq :=
  ⟨some (js "a"), some demoUrlA, some (js "c"), some 5, some 0, some true, some []⟩
def demoAddReqNoOld : AddReq :=
  ⟨some (js "a"), some demoUrlA, some (js "c"), some 5, none, none, none⟩
def demoUploadReq : UploadReq :=
  ⟨some (js "a"), some (js "c"), some 5, none, none, none, none⟩
def drOk : JStr → JStr := fun _ => js "ok"
def demoRemote : RemoteObj :=
  ⟨js "products/img", js "https://res.cloudinary.com/demo/image/upload/products/img.png"⟩
def demoRemoteA : RemoteObj := ⟨js "products/a", js "https://h/products/a.png"⟩
def demoRemoteB : RemoteObj := ⟨js "products/b", js "https://h/products/b.png"⟩
def dtFailA : JStr → Bool := fun pid => pid == js "a"

/-- C1: on `POST /removeproduct` of an existing product with a non-null
image, the destroy call is issued before any catalog deletion (it is the
first event of the trace, `catalogDelete` following only on success); a
destroy result of `ok` or `not found` lets the catalog row be deleted,
while any other result yields the media-delete error response and leaves
the catalog unchanged. -/
theorem removeproduct_media_then_catalog (dr : JStr → JStr) (cat : List Product)
    (i : Int) (p : Product) (url : JStr)
    (h0 : i ≠ 0) (h1 : findProd cat i = some p) (h2 : p.image = some url) :
    (dr (derivePublicId url) = js "ok" ∨ dr (derivePublicId url) = js "not found" →
      removeProduct dr cat (some i)
        = (removedResp, deleteFirst cat i,
            [Ev.destroyCall (derivePublicId url) (dr (derivePublicId url)),
              Ev.catalogDelete i]))
    ∧ (dr (derivePublicId url) ≠ js "ok" ∧ dr (derivePublicId url) ≠ js "not found" →
      removeProduct dr cat (some i)
        = (mediaDeleteResp, cat,
            [Ev.destroyCall (derivePublicId url) (dr (derivePublicId url))])) := by
  constructor
  · intro hok
    rcases hok with h | h <;> simp [removeProduct, h0, h1, h2, h]
  · intro hbad
    simp [removeProduct, h0, h1, h2, hbad.1, hbad.2]

/-- C1 witness: a one-product catalog, destroy answering `ok`. -/
theorem removeproduct_media_then_catalog_witness :
    ((1 : Int) ≠ 0) ∧ findProd [demoProdA] 1 = some demoProdA
      ∧ demoProdA.image = some demoUrlA
      ∧ ((drOk (derivePublicId demoUrlA) = js "ok" ∨ drOk (derivePublicId demoUrlA) = js "not found" →
            removeProduct drOk [demoProdA] (some 1)
              = (removedResp, deleteFirst [demoProdA] 1,
                  [Ev.destroyCall (derivePublicId demoUrlA) (drOk (derivePublicId demoUrlA)),
                    Ev.catalogDelete 1]))
          ∧ (drOk (derivePublicId demoUrlA) ≠ js "ok" ∧ drOk (derivePublicId demoUrlA) ≠ js "not found" →
            removeProduct drOk [demoProdA] (some 1)
              = (mediaDeleteResp, [demoProdA],
                  [Ev.destroyCall (derivePublicId demoUrlA) (drOk (derivePublicId demoUrlA))]))) :=
  ⟨by decide, by decide, rfl,
    removeproduct_media_then_catalog drOk [demoProdA] 1 demoProdA demoUrlA
      (by decide) (by decide) rfl⟩

/-- C2 (code-bug evidence): deleting the product whose stored image is
null never reaches the Media Store (empty event trace), but the identifier
derivation on the null URL raises a JavaScript `TypeError` — not an
`InvalidStateError` — which the generic catch turns into the 500
`Error removing product.` response, and the catalog row survives. -/
theorem removeproduct_null_image_typeerror :
    removeProduct drOk [demoNullProd] (some 1)
      = (removeCatchResp JsErr.typeError, [demoNullProd], []) := by
  decide

/-- C7: a delete request whose id matches no product answers 404
`Product not found.` with no Media Store call and no catalog change. -/
theorem removeproduct_unknown_id_404 (dr : JStr → JStr) (cat : List Product) (i : Int)
    (h0 : i ≠ 0) (h1 : findProd cat i = none) :
    removeProduct dr cat (some i) = (notFoundResp, cat, []) := by
  simp [removeProduct, h0, h1]

/-- C7 witness: id 7 is absent from the one-product catalog. -/
theorem removeproduct_unknown_id_404_witness :
    ((7 : Int) ≠ 0) ∧ findProd [demoProdA] 7 = none
      ∧ removeProduct drOk [demoProdA] (some 7) = (notFoundResp, [demoProdA], []) :=
  ⟨by decide, by decide,
    removeproduct_unknown_id_404 drOk [demoProdA] 7 (by decide) (by decide)⟩

/-- C8: `GET /allproducts` never writes (the catalog component of its
result is the input catalog, so a repeated read returns the same output),
and every returned image is the stored image rendered with the
`?v=<imageVersion>` suffix appended. -/
theorem allproducts_cache_bust_read_only (cat : List Product) :
    (allProducts cat).2 = cat
      ∧ allProducts ((allProducts cat).2) = allProducts cat
      ∧ (allProducts cat).1.map (fun q => q.image)
          = cat.map (fun p => jsShow p.image ++ js "?v=" ++ intStr p.imageVersion) := by
  refine ⟨rfl, rfl, ?_⟩
  simp only [allProducts, List.map_map]
  rfl

/-- C5 counterexample: create (id 1), delete product 1, create again — the
new product is assigned id 1 once more, so an id is reused after the
deletion of its product. -/
theorem product_id_reuse_counterexample :
    (addProduct [] demoAddReq).2.map (fun p => p.id) = [1]
      ∧ (removeProduct drOk ((addProduct [] demoAddReq).2) (some 1)).2.1 = []
      ∧ (addProduct
            ((removeProduct drOk ((addProduct [] demoAddReq).2) (some 1)).2.1)
            demoAddReq).2.map (fun p => p.id) = [1] := by
  decide

/-- C5 (amended): over any serialized sequence of creations the assigned
ids are strictly increasing (`nextId` is one more than the stored maximum,
`1` on an empty catalog), and both creation handlers persist exactly one
record carrying `nextId`; but an id can be reused once the product holding
the maximum id has been deleted. -/
theorem product_ids_strictly_increasing (cat : List Product) (ds : List ProtoProduct)
    (r : AddReq) (u : JStr) (r2 : UploadReq)
    (h1 : addGuard r = true) (h2 : uploadGuard r2 = true) :
    List.Pairwise (· < ·) (idsAssigned cat ds)
      ∧ (addProduct cat r).2 = createStep cat (protoOfAdd r)
      ∧ (uploadHandler u cat r2).2 = createStep cat (protoOfUpload u r2) := by
  refine ⟨idsAssigned_pairwise ds cat, ?_, ?_⟩
  · simp [addProduct, h1, createStep, mkProduct, protoOfAdd]
  · simp [uploadHandler, h2, createStep, mkProduct, protoOfUpload]

/-- C5 witness: two creations from the empty catalog assign ids 1 and 2. -/
theorem product_ids_strictly_increasing_witness :
    addGuard demoAddReq = true ∧ uploadGuard demoUploadReq = true
      ∧ (List.Pairwise (· < ·)
            (idsAssigned [] [protoOfAdd demoAddReq, protoOfAdd demoAddReq])
          ∧ (addProduct [] demoAddReq).2 = createStep [] (protoOfAdd demoAddReq)
          ∧ (uploadHandler demoUrlA [] demoUploadReq).2
              = createStep [] (protoOfUpload demoUrlA demoUploadReq)) :=
  ⟨by decide, by decide,
    product_ids_strictly_increasing [] [protoOfAdd demoAddReq, protoOfAdd demoAddReq]
      demoAddReq demoUrlA demoUploadReq (by decide) (by decide)⟩

/-- C9 counterexample: `POST /addproduct` without `old_price` succeeds and
stores the field undefined, not 0. -/
theorem addproduct_old_price_not_defaulted :
    (addProduct [] demoAddReqNoOld).1 = createdResp
      ∧ (addProduct [] demoAddReqNoOld).2.map (fun p => p.old_price) = [none]
      ∧ (none : Option Int) ≠ some 0 := by
  decide

/-- C9 (amended): when `old_price` is not supplied, `POST /upload` stores
it as 0 (via `old_price || 0`), while `POST /addproduct` stores it exactly
as supplied, leaving it undefined. -/
theorem old_price_defaulting_amended (cat : List Product) (u : JStr)
    (r1 : UploadReq) (r2 : AddReq)
    (g1 : uploadGuard r1 = true) (o1 : r1.old_price = none)
    (g2 : addGuard r2 = true) (o2 : r2.old_price = none) :
    ((uploadHandler u cat r1).2.drop cat.length).map (fun p => p.old_price) = [some 0]
      ∧ ((addProduct cat r2).2.drop cat.length).map (fun p => p.old_price) = [none] := by
  constructor
  · simp [uploadHandler, g1, o1, jsNumOr, List.drop_left]
  · simp [addProduct, g2, o2, List.drop_left]

/-- C9 witness: concrete requests without `old_price` on both paths. -/
theorem old_price_defaulting_amended_witness :
    uploadGuard demoUploadReq = true ∧ demoUploadReq.old_price = none
      ∧ addGuard demoAddReqNoOld = true ∧ demoAddReqNoOld.old_price = none
      ∧ (((uploadHandler demoUrlA [] demoUploadReq).2.drop 0).map (fun p => p.old_price)
            = [some 0]
          ∧ ((addProduct [] demoAddReqNoOld).2.drop 0).map (fun p => p.old_price)
            = [none]) :=
  ⟨by decide, rfl, by decide, rfl,
    old_price_defaulting_amended [] demoUrlA demoUploadReq demoAddReqNoOld
      (by decide) rfl (by decide) rfl⟩

/-- C10: a `POST /upload` request with valid name, category and new_price
but no attached file still creates and saves a product, whose image field
is null. -/
theorem upload_without_file_saves_null_image (cat : List Product) (u : JStr)
    (r : UploadReq) (hg : uploadGuard r = true) (hf : r.file = none) :
    (uploadHandler u cat r).1 = createdResp
      ∧ ((uploadHandler u cat r).2.drop cat.length).map (fun p => p.image) = [none] := by
  constructor
  · simp [uploadHandler, hg]
  · simp [uploadHandler, hg, hf, List.drop_left]

/-- C10 witness: the demo upload request carries no file. -/
theorem upload_without_file_saves_null_image_witness :
    uploadGuard demoUploadReq = true ∧ demoUploadReq.file = none
      ∧ ((uploadHandler demoUrlA [] demoUploadReq).1 = createdResp
          ∧ ((uploadHandler demoUrlA [] demoUploadReq).2.drop 0).map (fun p => p.image)
              = [none]) :=
  ⟨by decide, rfl,
    upload_without_file_saves_null_image [] demoUrlA demoUploadReq (by decide) rfl⟩

/-- C4 (code-bug evidence): with an empty catalog and a single remote
object under `products/`, the sweep's regex capture yields `img` — missing
the `products/` folder that both the delete handler's derivation and the
object's public id carry — so its destroy matches nothing: the sweep
completes, the orphan survives, and the post-sweep subset invariant is
false. -/
theorem cleanup_sweep_misses_orphan :
    regexCapture demoRemote.secureUrl = some (js "img")
      ∧ js "img" ≠ demoRemote.publicId
      ∧ derivePublicId demoRemote.secureUrl = demoRemote.publicId
      ∧ cleanupOrphans (fun _ => false) [] [demoRemote]
          = .ok [demoRemote] [js "Deleted orphaned image: " ++ demoRemote.secureUrl]
      ∧ sweepSubsetB [] [demoRemote] = false := by
  decide

/-- C6 counterexample: two orphans are pending; the destroy of the first
one rejects and the whole sweep ends with that error — the second orphan
is never processed and nothing is logged. -/
theorem sweep_destroy_failure_aborts_counterexample :
    orphansOf [] [demoRemoteA, demoRemoteB]
        = [demoRemoteA.secureUrl, demoRemoteB.secureUrl]
      ∧ cleanupOrphans dtFailA [] [demoRemoteA, demoRemoteB] = .err .destroyFailure := by
  decide

theorem sweepGo_abort (dt : JStr → Bool) (post : List JStr) (u pid : JStr)
    (hu : regexCapture u = some pid) (hdt : dt pid = true) :
    ∀ pre : List JStr, (∀ v ∈ pre, ∃ q, regexCapture v = some q ∧ dt q = false) →
      ∀ store logs, sweepGo dt (pre ++ u :: post) store logs = .err .destroyFailure := by
  intro pre
  induction pre with
  | nil =>
    intro _ store logs
    simp [sweepGo, hu, hdt]
  | cons v vs ih =>
    intro hpre store logs
    obtain ⟨q, hq, hdq⟩ := hpre v (List.mem_cons_self v vs)
    simp only [List.cons_append, sweepGo, hq, hdq, Bool.false_eq_true, if_false]
    exact ih (fun w hw => hpre w (List.mem_cons_of_mem v hw)) _ _

/-- C6 (amended): the sweep loop has no per-item error handling — as soon
as the destroy of some orphan rejects (all earlier ones having succeeded),
`cleanupOrphans` ends with that error and the remaining orphans are not
processed. -/
theorem sweep_abort_on_destroy_failure (dt : JStr → Bool) (cat : List Product)
    (store : List RemoteObj) (pre post : List JStr) (u pid : JStr)
    (hsplit : orphansOf cat store = pre ++ u :: post)
    (hpre : ∀ v ∈ pre, ∃ q, regexCapture v = some q ∧ dt q = false)
    (hu : regexCapture u = some pid) (hdt : dt pid = true) :
    cleanupOrphans dt cat store = .err .destroyFailure := by
  unfold cleanupOrphans
  rw [hsplit]
  exact sweepGo_abort dt post u pid hu hdt pre hpre store []

/-- C6 witness: the first orphan's destroy rejects and the sweep ends in
the propagated error. -/
theorem sweep_abort_on_destroy_failure_witness :
    orphansOf [] [demoRemoteA, demoRemoteB]
        = [] ++ demoRemoteA.secureUrl :: [demoRemoteB.secureUrl]
      ∧ cleanupOrphans dtFailA [] [demoRemoteA, demoRemoteB] = .err .destroyFailure :=
  ⟨by decide,
    sweep_abort_on_destroy_failure dtFailA [] [demoRemoteA, demoRemoteB]
      [] [demoRemoteB.secureUrl] demoRemoteA.secureUrl (js "a")
      (by decide) (by simp) (by decide) (by decide)⟩

end Shopit
